import Mathlib

/-!
Shallow embedding of the network-discovery and event-synchronization core of
the Network-Control backend (src/backend/sync.py, src/backend/network.py,
src/backend/routers/devices.py, src/backend/main.py), with theorems checking
the design document's claims about it.
-/

/-- A JSON-like scalar value, as stored in the dict payloads the backend
broadcasts. -/
inductive Val where
  | str : String → Val
  | int : Int → Val
deriving DecidableEq, Repr

/-- A broadcast message: a Python dict with string keys, modelled as an
insertion-ordered association list (new keys are appended at the end, as in
CPython dicts). -/
abbrev Msg := List (String × Val)

/-- An opaque WebSocket connection handle. -/
abbrev Conn := Nat

/-- State of `sync.py`'s `ConnectionManager`: the list of active WebSocket
connections and the bounded message history (`max_history = 100`). -/
structure ConnectionManager where
  active_connections : List Conn
  message_history : List Msg
deriving DecidableEq, Repr

/-- `ConnectionManager.__init__`: empty connection list, empty history. -/
def ConnectionManager.init : ConnectionManager := ⟨[], []⟩

/-- `sync.py` line 13: `self.max_history = 100`. -/
def max_history : Nat := 100

/-- Python's `list[-n:]`: the last `n` elements (all of them when the list is
shorter than `n`). -/
def lastN (n : Nat) (l : List α) : List α := l.drop (l.length - n)

/-- `ConnectionManager.connect` (sync.py lines 15-28): accept the socket,
append it to `active_connections`, and — only when `message_history` is
non-empty — send one history message carrying `message_history[-10:]`.
The second component is the payload of that history message (`none` when no
history message is sent). -/
def ConnectionManager.connect (m : ConnectionManager) (ws : Conn) :
    ConnectionManager × Option (List Msg) :=
  let m' := { m with active_connections := m.active_connections ++ [ws] }
  if m.message_history.isEmpty then (m', none)
  else (m', some (lastN 10 m.message_history))

/-- `ConnectionManager.disconnect` (sync.py lines 30-33): remove the socket
from `active_connections` if present. -/
def ConnectionManager.disconnect (m : ConnectionManager) (ws : Conn) :
    ConnectionManager :=
  { m with active_connections := m.active_connections.erase ws }

/-- `sync.py` lines 38-40 of `broadcast`: insert a current-UTC timestamp into
the message if the key "timestamp" is not already present (dict insertion
appends the new key at the end). -/
def stampTimestamp (now : String) (message : Msg) : Msg :=
  if (message.lookup "timestamp").isSome then message
  else message ++ [("timestamp", Val.str now)]

/-- `sync.py` lines 43-45 of `broadcast`: append the message to
`message_history`, then `pop(0)` once if the length exceeds `max_history`. -/
def pushHistory (history : List Msg) (message : Msg) : List Msg :=
  let h := history ++ [message]
  if max_history < h.length then h.drop 1 else h

/-- `ConnectionManager.broadcast` (sync.py lines 35-58). `health c = true`
means `send_json` to connection `c` succeeds this round; a failed send puts
the connection on the `disconnected` list, and after the loop each entry of
that list is removed via `disconnect`. Returns the new manager state, the
message as sent (timestamp inserted if it was absent), and the list of
connections the send succeeded to. -/
def ConnectionManager.broadcast (m : ConnectionManager) (health : Conn → Bool)
    (now : String) (message : Msg) : ConnectionManager × Msg × List Conn :=
  let message := stampTimestamp now message
  let history := pushHistory m.message_history message
  let delivered := m.active_connections.filter health
  let disconnected := m.active_connections.filter (fun c => !(health c))
  let m' : ConnectionManager :=
    { active_connections := m.active_connections, message_history := history }
  let m'' := disconnected.foldl ConnectionManager.disconnect m'
  (m'', message, delivered)

/-- `main.py` lines 77-79: the `/ws/sync` loop receives a JSON payload from
`sender` and hands it verbatim to `manager.broadcast`. -/
def websocket_sync_relay (m : ConnectionManager) (health : Conn → Bool)
    (now : String) (sender : Conn) (data : Msg) :
    ConnectionManager × Msg × List Conn :=
  m.broadcast health now data

/-- Publishing a list of events one after another through `broadcast`
(tracking only the manager state). -/
def publishList (m : ConnectionManager) (health : Conn → Bool) (now : String)
    (msgs : List Msg) : ConnectionManager :=
  msgs.foldl (fun acc msg => (acc.broadcast health now msg).1) m

/-- The process-wide wiring of the application: `main.py` line 12 creates one
`ConnectionManager` (used by the `/ws/sync` endpoint), and
`routers/devices.py` line 15 creates a second, distinct `ConnectionManager`
(used by the device routes' broadcasts). -/
structure AppState where
  main_manager : ConnectionManager
  devices_manager : ConnectionManager
deriving DecidableEq, Repr

/-- Process start: both module-level managers are freshly constructed. -/
def AppState.start : AppState := ⟨ConnectionManager.init, ConnectionManager.init⟩

/-- `main.py` line 75: a client connecting to `/ws/sync` registers with
`main.py`'s `manager`. -/
def websocket_sync_connect (s : AppState) (ws : Conn) :
    AppState × Option (List Msg) :=
  let r := s.main_manager.connect ws
  ({ s with main_manager := r.1 }, r.2)

/-- The `scan_complete` payload built in `routers/devices.py` lines 97-102. -/
def scan_complete_msg (new_devices updated_devices total : Nat) : Msg :=
  [("type", Val.str "scan_complete"), ("new_devices", Val.int new_devices),
   ("updated_devices", Val.int updated_devices), ("total", Val.int total)]

/-- `routers/devices.py` lines 97-102: the scan endpoint broadcasts its
`scan_complete` event on the router module's own `manager` (the
`devices_manager`), not on `main.py`'s. -/
def scan_devices_broadcast (s : AppState) (health : Conn → Bool) (now : String)
    (new_devices updated_devices total : Nat) :
    AppState × Msg × List Conn :=
  let r := s.devices_manager.broadcast health now
    (scan_complete_msg new_devices updated_devices total)
  ({ s with devices_manager := r.1 }, r.2.1, r.2.2)

/-- Error taxonomy of the design document for the scanner: the only scan-level
error it names is a malformed address range. -/
inductive ScanError where
  | invalidRange
deriving DecidableEq, Repr

/-- The dict produced by `scan_single_host` (network.py lines 86-97) for a
reachable host. -/
structure ScanResult where
  ip : String
  hostname : String
  mac : String
deriving DecidableEq, Repr

/-- Split a character list on a separator character (like Python's
`str.split(sep)`: `n` separators produce `n + 1` fields, possibly empty). -/
def splitOnChar (sep : Char) : List Char → List (List Char)
  | [] => [[]]
  | x :: xs =>
    if x = sep then [] :: splitOnChar sep xs
    else match splitOnChar sep xs with
      | [] => [[x]]
      | g :: gs => (x :: g) :: gs

/-- A non-empty all-digit character list read as a decimal number. -/
def parseDecimal (cs : List Char) : Option Nat :=
  if cs ≠ [] ∧ cs.all Char.isDigit then
    some (cs.foldl (fun acc c => acc * 10 + (c.toNat - 48)) 0)
  else none

/-- One dotted-quad octet, as accepted by Python's `ipaddress` module:
decimal digits, value at most 255, no leading zero. -/
def parseOctet (cs : List Char) : Option Nat :=
  match parseDecimal cs with
  | none => none
  | some n =>
    if n ≤ 255 ∧ (cs.length = 1 ∨ cs.head? ≠ some '0') then some n else none

/-- A dotted-quad IPv4 address as a 32-bit number. -/
def parseIPv4Address (cs : List Char) : Option Nat :=
  match splitOnChar '.' cs with
  | [a, b, c, d] =>
    match parseOctet a, parseOctet b, parseOctet c, parseOctet d with
    | some a, some b, some c, some d =>
      some (((a * 256 + b) * 256 + c) * 256 + d)
    | _, _, _, _ => none
  | _ => none

/-- A prefix length `0..32`. -/
def parsePrefixLen (cs : List Char) : Option Nat :=
  match parseDecimal cs with
  | none => none
  | some n => if n ≤ 32 then some n else none

/-- An IPv4 network: base address (host bits cleared) and prefix length. -/
structure IPv4Network where
  address : Nat
  prefixlen : Nat
deriving DecidableEq, Repr

/-- `ipaddress.IPv4Network(s, strict=False)` (network.py line 105): parse
`addr/len` (or a bare address, prefix length 32); `strict=False` masks the
host bits instead of rejecting them. Returns `none` exactly when Python
raises `ValueError`. -/
def parseIPv4Network (s : String) : Option IPv4Network :=
  match splitOnChar '/' s.toList with
  | [addr] => (parseIPv4Address addr).map (fun a => ⟨a, 32⟩)
  | [addr, p] =>
    match parseIPv4Address addr, parsePrefixLen p with
    | some a, some n => some ⟨a / 2 ^ (32 - n) * 2 ^ (32 - n), n⟩
    | _, _ => none
  | _ => none

/-- `network.hosts()`: all usable host addresses of the network — every
address for prefix length 31 or 32, all but the network and broadcast
addresses otherwise. -/
def IPv4Network.hosts (net : IPv4Network) : List Nat :=
  let size := 2 ^ (32 - net.prefixlen)
  if 31 ≤ net.prefixlen then (List.range size).map (fun i => net.address + i)
  else (List.range (size - 2)).map (fun i => net.address + 1 + i)

/-- Render a 32-bit address back to dotted-quad form (`str(ip)` in
network.py line 113). -/
def ipToString (n : Nat) : String :=
  toString (n / 16777216 % 256) ++ "." ++ toString (n / 65536 % 256) ++ "." ++
    toString (n / 256 % 256) ++ "." ++ toString (n % 256)

/-- `scan_network` (network.py lines 99-120), with the per-host probe
(`scan_single_host`) abstracted as a function returning `some` device info
for a reachable host and `none` otherwise. The `try/except` around range
parsing catches the `ValueError` and returns the empty device list, so the
function never propagates an error to its caller; the `Except` codomain
records that a Python callee could in principle raise. Reachable results are
collected over all host addresses of the range. -/
def scan_network (probe : String → Option ScanResult) (network_range : String) :
    Except ScanError (List ScanResult) :=
  match parseIPv4Network network_range with
  | none => Except.ok []
  | some net => Except.ok (net.hosts.filterMap (fun ip => probe (ipToString ip)))

/-- The host addresses `scan_network` dispatches probes for: none at all when
the range fails to parse (the executor loop is never reached), otherwise
every host address of the parsed network. -/
def probedHosts (network_range : String) : List String :=
  match parseIPv4Network network_range with
  | none => []
  | some net => net.hosts.map ipToString

/-- A row of the `devices` table (db.py lines 12-21), excluding the surrogate
integer id. Timestamps are abstract instants (`Nat`). -/
structure Device where
  mac : String
  ip : String
  hostname : String
  role : String
  last_seen : Nat
  status : String
  updated_at : Nat
deriving DecidableEq, Repr

/-- The update branch of the scan loop (routers/devices.py lines 67-72):
assign `ip`, `hostname`, `last_seen` and `updated_at` on the existing row;
all other columns keep their values. -/
def scanUpsert (now : Nat) (existing : Device) (r : ScanResult) : Device :=
  { existing with
    ip := r.ip
    hostname := r.hostname
    last_seen := now
    updated_at := now }

/-- The create branch of the scan loop (routers/devices.py lines 75-84):
a fresh row with the scanned mac/ip/hostname, role "Others", status
"active", and the column defaults for the timestamps. -/
def newDevice (now : Nat) (r : ScanResult) : Device :=
  { mac := r.mac
    ip := r.ip
    hostname := r.hostname
    role := "Others"
    last_seen := now
    status := "active"
    updated_at := now }

/-- The alert message created for a new device (routers/devices.py
line 88). -/
def newDeviceAlert (r : ScanResult) : String :=
  "New device detected: " ++ r.hostname ++ " (" ++ r.ip ++ ")"

/-- `db.query(Device).filter(Device.mac == r.mac).first()` followed by the
in-place attribute updates of the found row (routers/devices.py lines
65-72): find the first row whose `mac` equals the scanned mac and replace it
by its updated version; `none` when no row matches. -/
def updateByMac (now : Nat) (r : ScanResult) : List Device → Option (List Device)
  | [] => none
  | d :: ds =>
    if d.mac = r.mac then some (scanUpsert now d r :: ds)
    else (updateByMac now r ds).map (fun ds' => d :: ds')

/-- Outcome of one scan-endpoint reconciliation: the committed registry, the
two counters, and the alert messages recorded for new devices. -/
structure ReconcileResult where
  registry : List Device
  new_devices : Nat
  updated_devices : Nat
  alerts : List String
deriving DecidableEq, Repr

/-- The `for device_data in discovered` loop of `scan_devices`
(routers/devices.py lines 64-92). The session has `autoflush=False`
(db.py line 9), so each `db.query(...).first()` sees only committed rows
(with any in-session attribute updates, via the identity map) — rows
`db.add`ed earlier in the same loop are pending and not yet queryable; they
are kept in `pending` until the final `db.commit()`. -/
def scanDevicesLoop (now : Nat) (reg pending : List Device)
    (new_devices updated_devices : Nat) (alerts : List String) :
    List ScanResult → List Device × List Device × Nat × Nat × List String
  | [] => (reg, pending, new_devices, updated_devices, alerts)
  | r :: rs =>
    match updateByMac now r reg with
    | some reg' =>
      scanDevicesLoop now reg' pending new_devices (updated_devices + 1) alerts rs
    | none =>
      scanDevicesLoop now reg (pending ++ [newDevice now r]) (new_devices + 1)
        updated_devices (alerts ++ [newDeviceAlert r]) rs

/-- The reconciliation performed by the scan endpoint (routers/devices.py
lines 61-94): run the loop over the snapshot starting from the committed
registry, then `db.commit()` makes the pending inserts part of the
registry. -/
def scan_devices_reconcile (now : Nat) (reg : List Device)
    (snap : List ScanResult) : ReconcileResult :=
  let out := scanDevicesLoop now reg [] 0 0 [] snap
  ⟨out.1 ++ out.2.1, out.2.2.1, out.2.2.2.1, out.2.2.2.2⟩

/-- network.py line 84: the sentinel returned by `get_mac_address` when the
hardware identifier cannot be resolved. -/
def sentinelMac : String := "00:00:00:00:00:00"

/-- A device row keyed by the all-zero sentinel, as left in the registry by a
scan that failed MAC resolution for some host. -/
def sentDevice : Device :=
  ⟨sentinelMac, "10.0.0.1", "old-host", "Others", 0, "active", 0⟩

/-- A probe result for a different host whose MAC resolution also failed, so
its `mac` field is the sentinel. -/
def sentResult : ScanResult := ⟨"10.0.0.2", "new-host", sentinelMac⟩

/-- A registry row with operator-assigned role and status. -/
def demoDevice : Device :=
  ⟨"AA:BB:CC:DD:EE:FF", "192.168.1.5", "host-a", "Admin", 3, "blocked", 4⟩

/-- A later probe result for the same hardware id at a new address. -/
def demoResult : ScanResult := ⟨"192.168.1.9", "host-b", "AA:BB:CC:DD:EE:FF"⟩

/-- A numbered event that already carries a timestamp. -/
def testEvent (i : Nat) : Msg := [("seq", Val.int i), ("timestamp", Val.str "t")]

/-- The first `k` numbered events, in publish order. -/
def testEvents (k : Nat) : List Msg := (List.range k).map testEvent

/-- An opaque client payload that already carries a timestamp. -/
def chatMsg : Msg := [("type", Val.str "chat"), ("timestamp", Val.str "T")]

/-- An event payload without a timestamp key. -/
def plainMsg : Msg := [("type", Val.str "device_updated")]

/-! ## Helper lemmas about the broadcast hub -/

theorem lastN_of_length_le {l : List α} {n : Nat} (h : l.length ≤ n) :
    lastN n l = l := by
  unfold lastN
  rw [Nat.sub_eq_zero_of_le h, List.drop_zero]

theorem lastN_length_le (n : Nat) (l : List α) : (lastN n l).length ≤ n := by
  unfold lastN
  rw [List.length_drop]
  omega

theorem lastN_append (n : Nat) (l l' : List α) :
    lastN n (lastN n l ++ l') = lastN n (l ++ l') := by
  unfold lastN
  rw [List.drop_append_eq_append_drop, List.drop_append_eq_append_drop,
    List.drop_drop]
  simp only [List.length_append, List.length_drop]
  congr 2 <;> omega

theorem pushHistory_eq (history : List Msg) (message : Msg)
    (h : history.length ≤ max_history) :
    pushHistory history message = lastN max_history (history ++ [message]) := by
  unfold pushHistory lastN
  simp only [List.length_append, List.length_cons, List.length_nil]
  by_cases hc : max_history < history.length + 1
  · rw [if_pos hc]
    congr 1
    omega
  · rw [if_neg hc, show history.length + (0 + 1) - max_history = 0 by omega,
      List.drop_zero]

theorem foldl_pushHistory (msgs : List Msg) :
    ∀ h : List Msg, h.length ≤ max_history →
      msgs.foldl pushHistory h = lastN max_history (h ++ msgs) := by
  induction msgs with
  | nil =>
    intro h hle
    rw [List.foldl_nil, List.append_nil, lastN_of_length_le hle]
  | cons x xs ih =>
    intro h hle
    rw [List.foldl_cons, pushHistory_eq h x hle,
      ih _ (lastN_length_le _ _), lastN_append]
    simp

theorem foldl_disconnect_history (cs : List Conn) (m : ConnectionManager) :
    (cs.foldl ConnectionManager.disconnect m).message_history =
      m.message_history := by
  induction cs generalizing m with
  | nil => rfl
  | cons c cs ih => rw [List.foldl_cons, ih]; rfl

theorem foldl_disconnect_active (cs : List Conn) (m : ConnectionManager) :
    (cs.foldl ConnectionManager.disconnect m).active_connections =
      cs.foldl (fun l c => l.erase c) m.active_connections := by
  induction cs generalizing m with
  | nil => rfl
  | cons c cs ih => rw [List.foldl_cons, List.foldl_cons, ih]; rfl

theorem foldl_erase_cons (x : Conn) (xs cs : List Conn)
    (h : ∀ c ∈ cs, c ≠ x) :
    cs.foldl (fun l c => l.erase c) (x :: xs) =
      x :: cs.foldl (fun l c => l.erase c) xs := by
  induction cs generalizing xs with
  | nil => rfl
  | cons c cs ih =>
    rw [List.foldl_cons, List.foldl_cons,
      List.erase_cons_tail (by simpa using (h c (List.mem_cons_self c cs)).symm)]
    exact ih (xs.erase c) (fun c' hc' => h c' (List.mem_cons_of_mem _ hc'))

theorem foldl_erase_filter (p : Conn → Bool) (l : List Conn) :
    (l.filter (fun c => !(p c))).foldl (fun acc c => acc.erase c) l =
      l.filter p := by
  induction l with
  | nil => rfl
  | cons x xs ih =>
    by_cases hx : p x
    · rw [List.filter_cons_of_neg (by simpa using hx),
        List.filter_cons_of_pos hx,
        foldl_erase_cons x xs _ (fun c hc => by
          have := (List.mem_filter.mp hc).2
          intro hcx
          subst hcx
          simp [hx] at this),
        ih]
    · rw [List.filter_cons_of_pos (by simpa using hx),
        List.filter_cons_of_neg hx, List.foldl_cons, List.erase_cons_head, ih]

theorem broadcast_history (m : ConnectionManager) (health : Conn → Bool)
    (now : String) (msg : Msg) :
    (m.broadcast health now msg).1.message_history =
      pushHistory m.message_history (stampTimestamp now msg) := by
  unfold ConnectionManager.broadcast
  exact foldl_disconnect_history _ _

theorem broadcast_active (m : ConnectionManager) (health : Conn → Bool)
    (now : String) (msg : Msg) :
    (m.broadcast health now msg).1.active_connections =
      m.active_connections.filter health := by
  unfold ConnectionManager.broadcast
  rw [foldl_disconnect_active]
  exact foldl_erase_filter health m.active_connections

theorem broadcast_sent (m : ConnectionManager) (health : Conn → Bool)
    (now : String) (msg : Msg) :
    (m.broadcast health now msg).2.1 = stampTimestamp now msg := rfl

theorem broadcast_delivered (m : ConnectionManager) (health : Conn → Bool)
    (now : String) (msg : Msg) :
    (m.broadcast health now msg).2.2 = m.active_connections.filter health := rfl

theorem publishList_history (msgs : List Msg) (m : ConnectionManager)
    (health : Conn → Bool) (now : String) :
    (publishList m health now msgs).message_history =
      msgs.foldl (fun h msg => pushHistory h (stampTimestamp now msg))
        m.message_history := by
  induction msgs generalizing m with
  | nil => rfl
  | cons x xs ih =>
    show (publishList ((m.broadcast health now x).1) health now xs).message_history = _
    rw [ih, List.foldl_cons, broadcast_history]

theorem lookup_append_single (l : List (String × Val)) (k : String) (v : Val)
    (h : l.lookup k = none) : (l ++ [(k, v)]).lookup k = some v := by
  induction l with
  | nil => simp [List.lookup]
  | cons p l ih =>
    obtain ⟨a, b⟩ := p
    rw [List.cons_append]
    cases hka : (k == a) with
    | true => rw [List.lookup] at h; rw [hka] at h; exact absurd h (by simp)
    | false =>
      rw [List.lookup, hka]
      rw [List.lookup, hka] at h
      exact ih h

theorem stampTimestamp_of_isSome {msg : Msg} (now : String)
    (h : (msg.lookup "timestamp").isSome) : stampTimestamp now msg = msg := by
  unfold stampTimestamp
  rw [if_pos h]

theorem stampTimestamp_of_none {msg : Msg} (now : String)
    (h : msg.lookup "timestamp" = none) :
    stampTimestamp now msg = msg ++ [("timestamp", Val.str now)] := by
  unfold stampTimestamp
  rw [if_neg (by simp [h])]

theorem stampTimestamp_lookup_isSome (now : String) (msg : Msg) :
    ((stampTimestamp now msg).lookup "timestamp").isSome := by
  cases h : msg.lookup "timestamp" with
  | some v => rw [stampTimestamp_of_isSome now (by simp [h]), h]; rfl
  | none => rw [stampTimestamp_of_none now h, lookup_append_single _ _ _ h]; rfl

/-! ## Helper lemmas about the reconciliation loop -/

theorem updateByMac_isSome (now : Nat) (r : ScanResult) (reg : List Device) :
    (updateByMac now r reg).isSome ↔ r.mac ∈ reg.map Device.mac := by
  induction reg with
  | nil => simp [updateByMac]
  | cons d ds ih =>
    simp only [List.map_cons, List.mem_cons]
    by_cases h : d.mac = r.mac
    · simp [updateByMac, h]
    · rw [updateByMac, if_neg h,
        show (Option.map (fun ds' => d :: ds') (updateByMac now r ds)).isSome
            = (updateByMac now r ds).isSome from by
          cases updateByMac now r ds <;> rfl]
      rw [ih]
      constructor
      · exact fun hm => Or.inr hm
      · rintro (heq | hm)
        · exact absurd heq.symm h
        · exact hm

theorem updateByMac_macs (now : Nat) (r : ScanResult) :
    ∀ (reg reg' : List Device), updateByMac now r reg = some reg' →
      reg'.map Device.mac = reg.map Device.mac := by
  intro reg
  induction reg with
  | nil => intro reg' h; simp [updateByMac] at h
  | cons d ds ih =>
    intro reg' h
    rw [updateByMac] at h
    by_cases hd : d.mac = r.mac
    · rw [if_pos hd] at h
      injection h with h
      subst h
      simp [scanUpsert]
    · rw [if_neg hd] at h
      rcases Option.map_eq_some'.mp h with ⟨ds', hds', heq⟩
      subst heq
      simp [ih ds' hds']

theorem scanDevicesLoop_found (now : Nat) (reg pending : List Device)
    (n u : Nat) (a : List String) (r : ScanResult) (rs : List ScanResult)
    (reg' : List Device) (h : updateByMac now r reg = some reg') :
    scanDevicesLoop now reg pending n u a (r :: rs) =
      scanDevicesLoop now reg' pending n (u + 1) a rs := by
  rw [scanDevicesLoop, h]

theorem scanDevicesLoop_notfound (now : Nat) (reg pending : List Device)
    (n u : Nat) (a : List String) (r : ScanResult) (rs : List ScanResult)
    (h : updateByMac now r reg = none) :
    scanDevicesLoop now reg pending n u a (r :: rs) =
      scanDevicesLoop now reg (pending ++ [newDevice now r]) (n + 1) u
        (a ++ [newDeviceAlert r]) rs := by
  rw [scanDevicesLoop, h]

theorem scanDevicesLoop_reg_macs (now : Nat) (rs : List ScanResult) :
    ∀ reg pending n u a,
      ((scanDevicesLoop now reg pending n u a rs).1).map Device.mac =
        reg.map Device.mac := by
  induction rs with
  | nil => intros; rfl
  | cons r rs ih =>
    intro reg pending n u a
    cases hu : updateByMac now r reg with
    | some reg' =>
      rw [scanDevicesLoop_found now reg pending n u a r rs reg' hu, ih,
        updateByMac_macs now r reg reg' hu]
    | none => rw [scanDevicesLoop_notfound now reg pending n u a r rs hu, ih]

theorem scanDevicesLoop_mac_mem (now : Nat) (rs : List ScanResult) :
    ∀ reg pending n u a (s : String),
      (s ∈ reg.map Device.mac ∨ s ∈ pending.map Device.mac ∨
        ∃ r ∈ rs, r.mac = s) →
      s ∈ ((scanDevicesLoop now reg pending n u a rs).1 ++
            (scanDevicesLoop now reg pending n u a rs).2.1).map Device.mac := by
  induction rs with
  | nil =>
    intro reg pending n u a s hs
    rw [scanDevicesLoop]
    rcases hs with h | h | ⟨r, hr, _⟩
    · rw [List.map_append, List.mem_append]; exact Or.inl h
    · rw [List.map_append, List.mem_append]; exact Or.inr h
    · exact absurd hr (List.not_mem_nil r)
  | cons r rs ih =>
    intro reg pending n u a s hs
    cases hu : updateByMac now r reg with
    | some reg' =>
      rw [scanDevicesLoop_found now reg pending n u a r rs reg' hu]
      apply ih
      rcases hs with h | h | ⟨r', hr', hmac⟩
      · exact Or.inl (by rw [updateByMac_macs now r reg reg' hu]; exact h)
      · exact Or.inr (Or.inl h)
      · rcases List.mem_cons.mp hr' with heq | hr''
        · refine Or.inl ?_
          rw [updateByMac_macs now r reg reg' hu, ← hmac, heq]
          exact (updateByMac_isSome now r reg).mp (by rw [hu]; rfl)
        · exact Or.inr (Or.inr ⟨r', hr'', hmac⟩)
    | none =>
      rw [scanDevicesLoop_notfound now reg pending n u a r rs hu]
      apply ih
      rcases hs with h | h | ⟨r', hr', hmac⟩
      · exact Or.inl h
      · exact Or.inr (Or.inl (by
          rw [List.map_append, List.mem_append]; exact Or.inl h))
      · rcases List.mem_cons.mp hr' with heq | hr''
        · refine Or.inr (Or.inl ?_)
          rw [List.map_append, List.mem_append]
          exact Or.inr (by rw [← hmac, heq]; simp [newDevice])
        · exact Or.inr (Or.inr ⟨r', hr'', hmac⟩)

theorem scanDevicesLoop_all_found (now : Nat) (rs : List ScanResult) :
    ∀ reg pending n u a, (∀ r ∈ rs, r.mac ∈ reg.map Device.mac) →
      (scanDevicesLoop now reg pending n u a rs).2.1 = pending ∧
      (scanDevicesLoop now reg pending n u a rs).2.2.1 = n ∧
      (scanDevicesLoop now reg pending n u a rs).2.2.2.1 = u + rs.length ∧
      (scanDevicesLoop now reg pending n u a rs).2.2.2.2 = a := by
  induction rs with
  | nil =>
    intro reg pending n u a _
    exact ⟨rfl, rfl, by rw [scanDevicesLoop]; simp, rfl⟩
  | cons r rs ih =>
    intro reg pending n u a hall
    have hr : r.mac ∈ reg.map Device.mac := hall r (List.mem_cons_self r rs)
    obtain ⟨reg', hu⟩ :=
      Option.isSome_iff_exists.mp ((updateByMac_isSome now r reg).mpr hr)
    rw [scanDevicesLoop_found now reg pending n u a r rs reg' hu]
    have hall' : ∀ r' ∈ rs, r'.mac ∈ reg'.map Device.mac := fun r' h' => by
      rw [updateByMac_macs now r reg reg' hu]
      exact hall r' (List.mem_cons_of_mem r h')
    obtain ⟨h1, h2, h3, h4⟩ := ih reg' pending n (u + 1) a hall'
    refine ⟨h1, h2, ?_, h4⟩
    rw [h3, List.length_cons]
    omega

/-! ## Claim theorems -/

/-- Claim C1 (code bug): with one client connected through the `/ws/sync`
transport, the `scan_complete` broadcast of the scan endpoint is delivered to
nobody — the endpoint publishes on `routers/devices.py`'s own
`ConnectionManager` instance, whose connection set is empty, while the
subscriber sits in `main.py`'s manager. The publisher used by the scan
endpoint and the subscriber set populated by the sync transport are not the
same hub state. -/
theorem C1_scan_event_reaches_no_subscriber :
    (scan_devices_broadcast (websocket_sync_connect AppState.start 0).1
        (fun _ => true) "T" 1 0 1).2.2 = [] ∧
    (websocket_sync_connect AppState.start 0).1.main_manager.active_connections
      = [0] := ⟨rfl, rfl⟩

/-- Claim C2 counterexample: a subscriber joining a hub with empty history
(N = 0) receives no history message at all, contradicting the claim that a
single history message with min(10, N) = 0 events is sent in that case. -/
theorem C2_counterexample_empty_history :
    (ConnectionManager.init.connect 7).2 = none ∧
    (ConnectionManager.init.connect 7).2 ≠ some [] := ⟨rfl, by decide⟩

/-- Claim C2 (amended): every new subscriber is registered, and — when at
least one event has been published — is sent exactly one history message
carrying the last min(10, N) buffered events in publish order (exactly the
10 most recent when N ≥ 10); when N = 0 no history message is sent. -/
theorem C2_history_replay (m : ConnectionManager) (ws : Conn) :
    (m.connect ws).1.active_connections = m.active_connections ++ [ws] ∧
    (m.message_history = [] → (m.connect ws).2 = none) ∧
    (m.message_history ≠ [] →
      (m.connect ws).2 =
        some (m.message_history.drop (m.message_history.length - 10))) ∧
    (10 ≤ m.message_history.length →
      (m.message_history.drop (m.message_history.length - 10)).length = 10) := by
  refine ⟨?_, ?_, ?_, ?_⟩
  · unfold ConnectionManager.connect
    by_cases h : m.message_history.isEmpty <;> simp [h]
  · intro h
    unfold ConnectionManager.connect
    rw [if_pos (by simp [h])]
  · intro h
    unfold ConnectionManager.connect
    rw [if_neg (by simpa using h)]
    rfl
  · intro h
    rw [List.length_drop]
    omega

/-- Witness for C2: on a hub with one buffered event, the new subscriber
receives that event. -/
theorem C2_history_replay_witness :
    ((ConnectionManager.mk [] [chatMsg]).connect 5).2 =
      some ([chatMsg].drop ([chatMsg].length - 10)) :=
  (C2_history_replay ⟨[], [chatMsg]⟩ 5).2.2.1 (by decide)

theorem foldl_pushHistory_stamp (now : String) (msgs : List Msg)
    (hmsgs : ∀ msg ∈ msgs, stampTimestamp now msg = msg) (h0 : List Msg) :
    msgs.foldl (fun h msg => pushHistory h (stampTimestamp now msg)) h0 =
      msgs.foldl pushHistory h0 := by
  induction msgs generalizing h0 with
  | nil => rfl
  | cons x xs ih =>
    rw [List.foldl_cons, List.foldl_cons, hmsgs x (List.mem_cons_self x xs),
      ih (fun m hm => hmsgs m (List.mem_cons_of_mem x hm))]

/-- Claim C3: the event history is a capacity-100 FIFO — whenever the history
holds at most 100 events before a publish, after the publish it still holds
at most 100 and equals the last 100 of the old history extended by the new
event (oldest evicted first); concretely, publishing 150 events to an empty
hub leaves exactly events 50..149 in publish order. -/
theorem C3_history_fifo_bound :
    (∀ (m : ConnectionManager) (health : Conn → Bool) (now : String)
        (msg : Msg), m.message_history.length ≤ max_history →
      (m.broadcast health now msg).1.message_history =
        lastN max_history (m.message_history ++ [stampTimestamp now msg]) ∧
      (m.broadcast health now msg).1.message_history.length ≤ max_history) ∧
    (publishList ConnectionManager.init (fun _ => true) "t0"
        (testEvents 150)).message_history = (testEvents 150).drop 50 := by
  constructor
  · intro m health now msg hle
    constructor
    · rw [broadcast_history, pushHistory_eq _ _ hle]
    · rw [broadcast_history, pushHistory_eq _ _ hle]
      exact lastN_length_le _ _
  · have hstamp : ∀ msg ∈ testEvents 150, stampTimestamp "t0" msg = msg := by
      intro msg hm
      simp only [testEvents, List.mem_map] at hm
      obtain ⟨i, _, rfl⟩ := hm
      rfl
    rw [publishList_history, foldl_pushHistory_stamp "t0" _ hstamp _,
      foldl_pushHistory _ _ (by simp [ConnectionManager.init, max_history])]
    show lastN max_history
      (ConnectionManager.init.message_history ++ testEvents 150) = _
    rw [show ConnectionManager.init.message_history = ([] : List Msg) from rfl,
      List.nil_append]
    unfold lastN
    rw [show (testEvents 150).length = 150 from by
      simp [testEvents]]
    norm_num [max_history]

/-- Witness for C3: the bounded-append behaviour at a one-event history. -/
theorem C3_history_fifo_bound_witness :
    (ConnectionManager.broadcast ⟨[], [chatMsg]⟩ (fun _ => true) "T2"
        chatMsg).1.message_history =
      lastN max_history ([chatMsg] ++ [stampTimestamp "T2" chatMsg]) ∧
    (ConnectionManager.broadcast ⟨[], [chatMsg]⟩ (fun _ => true) "T2"
        chatMsg).1.message_history.length ≤ max_history :=
  C3_history_fifo_bound.1 ⟨[], [chatMsg]⟩ (fun _ => true) "T2" chatMsg
    (by decide)

/-- Claim C4 counterexample: on an unparseable range the scanner returns the
ordinary empty device list; no InvalidRange error is surfaced to the
caller. -/
theorem C4_counterexample_no_error_surfaced :
    scan_network (fun _ => none) "not-an-ip-range" = Except.ok [] ∧
    scan_network (fun _ => none) "not-an-ip-range" ≠
      Except.error ScanError.invalidRange := by
  have hok : scan_network (fun _ => none) "not-an-ip-range" = Except.ok [] := by
    unfold scan_network
    rw [show parseIPv4Network "not-an-ip-range" = none from by decide]
  refine ⟨hok, ?_⟩
  rw [hok]
  intro h
  exact Except.noConfusion h

/-- Claim C4 (amended): for every input string that is not a parseable
address range, the scan probes no host and returns the empty device list —
indistinguishable from a successful scan that found nothing; no error is
surfaced. -/
theorem C4_invalid_range_silent_empty (probe : String → Option ScanResult)
    (s : String) (h : parseIPv4Network s = none) :
    scan_network probe s = Except.ok [] ∧ probedHosts s = [] := by
  constructor
  · unfold scan_network
    rw [h]
  · unfold probedHosts
    rw [h]

/-- Witness for C4: the concrete malformed range "abc". -/
theorem C4_invalid_range_silent_empty_witness :
    scan_network (fun _ => none) "abc" = Except.ok [] ∧ probedHosts "abc" = [] :=
  C4_invalid_range_silent_empty (fun _ => none) "abc" (by decide)

/-- Claim C5 (code bug): the reconciliation loop uses the all-zero sentinel
hardware id verbatim as the identity key — a probe result with an unresolved
MAC is classified "new" against an empty registry (and stored under the
sentinel as its identity), but classified as an update of whatever record
already carries the sentinel key, overwriting that unrelated record's
address and name. The sentinel is never treated as "unknown". -/
theorem C5_sentinel_used_as_identity :
    (scan_devices_reconcile 1 [] [sentResult]).new_devices = 1 ∧
    (scan_devices_reconcile 1 [] [sentResult]).registry =
      [newDevice 1 sentResult] ∧
    (newDevice 1 sentResult).mac = sentinelMac ∧
    (scan_devices_reconcile 1 [sentDevice] [sentResult]).new_devices = 0 ∧
    (scan_devices_reconcile 1 [sentDevice] [sentResult]).updated_devices = 1 ∧
    (scan_devices_reconcile 1 [sentDevice] [sentResult]).registry =
      [scanUpsert 1 sentDevice sentResult] := by
  refine ⟨?_, ?_, rfl, ?_, ?_, ?_⟩ <;> rfl

/-- Claim C6 counterexample: a message arriving from connected client 1 is
re-broadcast unmodified (its timestamp is already present) and client 1
itself is among the recipients — the relay does not exclude the
originator. -/
theorem C6_counterexample_sender_receives :
    1 ∈ (websocket_sync_relay ⟨[1, 2], []⟩ (fun _ => true) "T" 1 chatMsg).2.2 ∧
    (websocket_sync_relay ⟨[1, 2], []⟩ (fun _ => true) "T" 1 chatMsg).2.1 =
      chatMsg := ⟨by decide, rfl⟩

/-- Claim C6 (amended): every message received from a client is re-broadcast
without content interpretation to all connected subscribers whose channel
works — including the originating client — unchanged except that a
timestamp is inserted when the message lacks one. -/
theorem C6_relay_rebroadcast_to_all (m : ConnectionManager)
    (health : Conn → Bool) (now : String) (sender : Conn) (data : Msg) :
    (websocket_sync_relay m health now sender data).2.2 =
      m.active_connections.filter health ∧
    (sender ∈ m.active_connections → health sender = true →
      sender ∈ (websocket_sync_relay m health now sender data).2.2) ∧
    (websocket_sync_relay m health now sender data).2.1 =
      stampTimestamp now data ∧
    ((data.lookup "timestamp").isSome →
      (websocket_sync_relay m health now sender data).2.1 = data) := by
  refine ⟨rfl, ?_, rfl, ?_⟩
  · intro hmem hh
    show sender ∈ m.active_connections.filter health
    exact List.mem_filter.mpr ⟨hmem, hh⟩
  · intro h
    show stampTimestamp now data = data
    exact stampTimestamp_of_isSome now h

/-- Witness for C6: a healthy connected sender receives its own relayed
message. -/
theorem C6_relay_rebroadcast_to_all_witness :
    2 ∈ (websocket_sync_relay ⟨[2], []⟩ (fun _ => true) "T" 2 chatMsg).2.2 :=
  (C6_relay_rebroadcast_to_all ⟨[2], []⟩ (fun _ => true) "T" 2 chatMsg).2.1
    (by decide) rfl

/-- Claim C7: reconciliation is idempotent for new-device events —
reconciling the same snapshot again, against the registry state the first
reconciliation committed, classifies every entry as an update: zero new
devices, zero new-device alerts, and an update count equal to the snapshot
size. -/
theorem C7_reconcile_idempotent (now now2 : Nat) (reg : List Device)
    (snap : List ScanResult) :
    (scan_devices_reconcile now2
        (scan_devices_reconcile now reg snap).registry snap).new_devices = 0 ∧
    (scan_devices_reconcile now2
        (scan_devices_reconcile now reg snap).registry snap).alerts = [] ∧
    (scan_devices_reconcile now2
        (scan_devices_reconcile now reg snap).registry snap).updated_devices =
      snap.length := by
  have hall : ∀ r ∈ snap,
      r.mac ∈ ((scan_devices_reconcile now reg snap).registry).map Device.mac := by
    intro r hr
    show r.mac ∈ ((scanDevicesLoop now reg [] 0 0 [] snap).1 ++
      (scanDevicesLoop now reg [] 0 0 [] snap).2.1).map Device.mac
    exact scanDevicesLoop_mac_mem now snap reg [] 0 0 [] r.mac
      (Or.inr (Or.inr ⟨r, hr, rfl⟩))
  obtain ⟨h1, h2, h3, h4⟩ := scanDevicesLoop_all_found now2 snap
    (scan_devices_reconcile now reg snap).registry [] 0 0 [] hall
  exact ⟨h2, h4, by rw [show (scan_devices_reconcile now2
    (scan_devices_reconcile now reg snap).registry snap).updated_devices =
    (scanDevicesLoop now2 (scan_devices_reconcile now reg snap).registry
      [] 0 0 [] snap).2.2.2.1 from rfl, h3, Nat.zero_add]⟩

/-- Claim C8 counterexample: updating an existing record also overwrites its
`updated_at` column, which is outside the claimed address/displayName/
last-seen update set. -/
theorem C8_counterexample_updated_at_changes :
    updateByMac 9 demoResult [demoDevice] =
      some [scanUpsert 9 demoDevice demoResult] ∧
    (scanUpsert 9 demoDevice demoResult).updated_at ≠ demoDevice.updated_at :=
  ⟨rfl, by decide⟩

/-- Claim C8 (amended): for every probe result matching an existing record,
the scan update touches only `ip`, `hostname`, `last_seen` and `updated_at`;
the record's identity (`mac`), `role` and `status` are left unchanged, and
every non-matching record is untouched. -/
theorem C8_scan_update_frame (now : Nat) (r : ScanResult) :
    ∀ (reg reg' : List Device), updateByMac now r reg = some reg' →
      List.Forall₂ (fun old new =>
        new.mac = old.mac ∧ new.role = old.role ∧ new.status = old.status ∧
        (new = old ∨ (new.ip = r.ip ∧ new.hostname = r.hostname ∧
          new.last_seen = now ∧ new.updated_at = now))) reg reg' := by
  intro reg
  induction reg with
  | nil => intro reg' h; simp [updateByMac] at h
  | cons d ds ih =>
    intro reg' h
    rw [updateByMac] at h
    by_cases hd : d.mac = r.mac
    · rw [if_pos hd] at h
      injection h with h
      subst h
      exact List.Forall₂.cons ⟨rfl, rfl, rfl, Or.inr ⟨rfl, rfl, rfl, rfl⟩⟩
        (List.forall₂_same.mpr fun x _ => ⟨rfl, rfl, rfl, Or.inl rfl⟩)
    · rw [if_neg hd] at h
      rcases Option.map_eq_some'.mp h with ⟨ds', hds', heq⟩
      subst heq
      exact List.Forall₂.cons ⟨rfl, rfl, rfl, Or.inl rfl⟩ (ih ds' hds')

/-- Witness for C8: the frame property at a concrete one-record registry. -/
theorem C8_scan_update_frame_witness :
    List.Forall₂ (fun old new =>
      new.mac = old.mac ∧ new.role = old.role ∧ new.status = old.status ∧
      (new = old ∨ (new.ip = demoResult.ip ∧ new.hostname = demoResult.hostname ∧
        new.last_seen = 9 ∧ new.updated_at = 9)))
      [demoDevice] [scanUpsert 9 demoDevice demoResult] :=
  C8_scan_update_frame 9 demoResult [demoDevice]
    [scanUpsert 9 demoDevice demoResult] rfl

/-- Claim C9: a delivery failure to one subscriber is isolated — the publish
still completes, the event still lands in the history, every other healthy
subscriber still receives it, and the failed subscriber is removed from the
active set (it is attempted exactly once, never retried). -/
theorem C9_delivery_failure_isolated (m : ConnectionManager)
    (health : Conn → Bool) (now : String) (msg : Msg) (A B : Conn)
    (hA : A ∈ m.active_connections) (hB : B ∈ m.active_connections)
    (hfA : health A = false) (hfB : health B = true) :
    B ∈ (m.broadcast health now msg).2.2 ∧
    A ∉ (m.broadcast health now msg).1.active_connections ∧
    (m.broadcast health now msg).2.2 = m.active_connections.filter health ∧
    (m.broadcast health now msg).1.message_history =
      pushHistory m.message_history (stampTimestamp now msg) := by
  refine ⟨?_, ?_, broadcast_delivered m health now msg,
    broadcast_history m health now msg⟩
  · rw [broadcast_delivered]
    exact List.mem_filter.mpr ⟨hB, hfB⟩
  · rw [broadcast_active]
    intro hmem
    have hc := (List.mem_filter.mp hmem).2
    rw [hfA] at hc
    exact absurd hc (by simp)

/-- Witness for C9: two subscribers, the first one's channel broken. -/
theorem C9_delivery_failure_isolated_witness :
    2 ∈ (ConnectionManager.broadcast ⟨[1, 2], []⟩ (fun c => c == 2) "T"
        chatMsg).2.2 ∧
    1 ∉ (ConnectionManager.broadcast ⟨[1, 2], []⟩ (fun c => c == 2) "T"
        chatMsg).1.active_connections ∧
    (ConnectionManager.broadcast ⟨[1, 2], []⟩ (fun c => c == 2) "T"
        chatMsg).2.2 = [1, 2].filter (fun c => c == 2) ∧
    (ConnectionManager.broadcast ⟨[1, 2], []⟩ (fun c => c == 2) "T"
        chatMsg).1.message_history =
      pushHistory [] (stampTimestamp "T" chatMsg) :=
  C9_delivery_failure_isolated ⟨[1, 2], []⟩ (fun c => c == 2) "T" chatMsg 1 2
    (by decide) (by decide) rfl rfl

/-- Claim C10: publish inserts a current-UTC timestamp into any event that
lacks one, before the event is appended to history and before any delivery;
a timestamp already present is left unchanged, and the stored and delivered
event always carries a timestamp. -/
theorem C10_timestamp_insertion (m : ConnectionManager) (health : Conn → Bool)
    (now : String) (msg : Msg) :
    (msg.lookup "timestamp" = none →
      stampTimestamp now msg = msg ++ [("timestamp", Val.str now)]) ∧
    ((msg.lookup "timestamp").isSome → stampTimestamp now msg = msg) ∧
    ((stampTimestamp now msg).lookup "timestamp").isSome ∧
    (m.broadcast health now msg).1.message_history =
      pushHistory m.message_history (stampTimestamp now msg) ∧
    (m.broadcast health now msg).2.1 = stampTimestamp now msg :=
  ⟨fun h => stampTimestamp_of_none now h,
   fun h => stampTimestamp_of_isSome now h,
   stampTimestamp_lookup_isSome now msg,
   broadcast_history m health now msg,
   broadcast_sent m health now msg⟩

/-- Witness for C10: a timestamp is appended to an event lacking one. -/
theorem C10_timestamp_insertion_witness :
    stampTimestamp "T" plainMsg = plainMsg ++ [("timestamp", Val.str "T")] :=
  (C10_timestamp_insertion ConnectionManager.init (fun _ => true) "T"
    plainMsg).1 (by decide)
